import Mathlib

/-!
Shallow embedding of `src/fuse/loopback.go`: a loopback (passthrough) FUSE
filesystem that forwards every operation to the host filesystem rooted at a
configured directory.

Host primitives (`os.Lstat`, `os.OpenFile`, `File.Readdir`, `File.ReadAt`,
`syscall.Unlink`, fd-level `Ftruncate`/`Fchmod`/`Fchown`/`Fstat`) are external
ground truth; each adapter operation receives the host's response either as an
explicit oracle argument or through a `HostState` record.  Types declared in
the repository but outside `src/` (`Status`, `Attr`, `CopyFileInfo`,
`OsErrorToErrno`, `DirEntry`, `ReadIn`, `BufferPool`) are modelled from the
spec, as marked on each one.
-/

/-- Modelled from the spec: the `Status` type of the repository is not under
`src/`; per §7 it is the closed status-code space mirroring host errno values,
with `OK = 0`. -/
abbrev Status := Nat

/-- Modelled from the spec: success status. -/
def OK : Status := 0

/-- Modelled from the spec: the `NotFound` status (host errno for a missing
path). -/
def ENOENT : Status := 2

/-- Host errno for a bad file descriptor (host ground truth constant). -/
def EBADF : Nat := 9

/-- Host errno for permission denied (host ground truth constant). -/
def EACCES : Nat := 13

/-- A native host error value, carrying the host's errno. -/
structure OsError where
  errno : Nat
deriving DecidableEq, Repr

/-- Modelled from the spec: `OsErrorToErrno` of the repository is not under
`src/`; per §7 it is the direct, lossless translation of the host's native
error code into the status space, with a nil error mapping to `OK`. -/
def OsErrorToErrno : Option OsError → Status
  | none => OK
  | some e => e.errno

/-- The host's native metadata record for one file, as returned by
`os.Lstat` / `File.Stat` / `File.Readdir` (old Go `os.FileInfo` with exported
fields `Name`, `Mode`, etc.). -/
structure FileInfo where
  name : String
  size : Nat
  mode : Nat
  atimeNs : Nat
  mtimeNs : Nat
  ctimeNs : Nat
  nlink : Nat
  uid : Nat
  gid : Nat
deriving DecidableEq, Repr

/-- Modelled from the spec: the `Attr` record of the repository is not under
`src/`; per §3 it is a snapshot of metadata (size, mode, timestamps, link
count, ownership) translated from the host's native metadata structure. -/
structure Attr where
  size : Nat
  mode : Nat
  atimeNs : Nat
  mtimeNs : Nat
  ctimeNs : Nat
  nlink : Nat
  uid : Nat
  gid : Nat
deriving DecidableEq, Repr

/-- Modelled from the spec: `CopyFileInfo` of the repository is not under
`src/`; per §4.2 it populates size, mode, timestamps, link count and ownership
of the `Attr` from the host metadata snapshot. -/
def CopyFileInfo (fi : FileInfo) : Attr :=
  ⟨fi.size, fi.mode, fi.atimeNs, fi.mtimeNs, fi.ctimeNs, fi.nlink, fi.uid, fi.gid⟩

/-- The host state visible to this adapter: the per-path `Lstat` response and
the open-file-descriptor table.  Renaming or unlinking a path changes only the
path view, never the fd table (host ground truth). -/
structure HostState where
  lstat : String → Except OsError FileInfo
  fdTable : Nat → Option FileInfo

/-- Host fd-level stat (`File.Stat`): determined by the fd table alone. -/
def HostState.fstat (h : HostState) (fd : Nat) : Except OsError FileInfo :=
  match h.fdTable fd with
  | none => Except.error ⟨EBADF⟩
  | some fi => Except.ok fi

/-- Host fd-level truncate (`syscall.Ftruncate`): returns a raw errno,
determined by the fd table alone. -/
def HostState.ftruncate (h : HostState) (fd _size : Nat) : Nat :=
  match h.fdTable fd with
  | none => EBADF
  | some _ => 0

/-- Host fd-level chmod (`File.Chmod`): determined by the fd table alone. -/
def HostState.fchmod (h : HostState) (fd _mode : Nat) : Option OsError :=
  match h.fdTable fd with
  | none => some ⟨EBADF⟩
  | some _ => none

/-- Host fd-level chown (`File.Chown`): determined by the fd table alone. -/
def HostState.fchown (h : HostState) (fd _uid _gid : Nat) : Option OsError :=
  match h.fdTable fd with
  | none => some ⟨EBADF⟩
  | some _ => none

/-- `type LoopbackFileSystem struct { root string }`. -/
structure LoopbackFileSystem where
  root : String

/-- `NewLoopbackFileSystem`. -/
def NewLoopbackFileSystem (root : String) : LoopbackFileSystem := ⟨root⟩

/-- `GetPath`: join the configured root with the caller's relative path. -/
def LoopbackFileSystem.GetPath (fs : LoopbackFileSystem) (relPath : String) : String :=
  fs.root ++ "/" ++ relPath

/-- `GetAttr`: `os.Lstat` the resolved path; any host error becomes
`(nil, ENOENT)`, success copies the metadata via `CopyFileInfo`. -/
def LoopbackFileSystem.GetAttr (fs : LoopbackFileSystem) (h : HostState)
    (name : String) : Option Attr × Status :=
  match h.lstat (fs.GetPath name) with
  | Except.error _ => (none, ENOENT)
  | Except.ok fi => (some (CopyFileInfo fi), OK)

/-- `Chmod`: `os.Chmod` the resolved path, translate the host result.  The
host chmod outcome is supplied as an oracle. -/
def LoopbackFileSystem.Chmod (fs : LoopbackFileSystem) (path : String) (mode : Nat)
    (hostChmod : String → Nat → Option OsError) : Status :=
  OsErrorToErrno (hostChmod (fs.GetPath path) mode)

/-- Modelled from the spec: `DirEntry` of the repository is not under `src/`;
per §3 it is a value with a name and a mode tag. -/
structure DirEntry where
  name : String
  mode : Nat
deriving DecidableEq, Repr

/-- `DirEntry{Name: infos[i].Name, Mode: infos[i].Mode}` in the `OpenDir`
producer. -/
def toDirEntry (fi : FileInfo) : DirEntry := ⟨fi.name, fi.mode⟩

/-- One host `Readdir(want)` response: the batch of entries plus the returned
error, if any. -/
abbrev ReaddirBatch := List FileInfo × Option OsError

/-- `want := 500` in `OpenDir`. -/
def readdirWant : Nat := 500

/-- Result of the `OpenDir` producer loop: the entries pushed to the queue and
the number of host `Readdir` fetches issued. -/
structure LoopOut where
  pushed : List DirEntry
  fetches : Nat
deriving DecidableEq, Repr

/-- The `OpenDir` producer loop body: repeatedly fetch `Readdir(want)`; push
every entry of the batch; break when the batch is shorter than `want`, else
break when the host reported an error, else loop.  An exhausted response list
models the host returning an empty batch. -/
def runLoop (want : Nat) : List ReaddirBatch → LoopOut
  | [] => ⟨[], 1⟩
  | (infos, err) :: rest =>
      let out := infos.map toDirEntry
      if infos.length < want then ⟨out, 1⟩
      else
        match err with
        | some _ => ⟨out, 1⟩
        | none =>
            let r := runLoop want rest
            ⟨out ++ r.pushed, r.fetches + 1⟩

/-- An event observable around the producer goroutine: a `DirEntry` pushed
into the queue, the `close(output)` of the queue, or the `f.Close()` of the
host directory handle. -/
inductive DirEvent where
  | push (e : DirEntry)
  | closeQueue
  | closeHandle
deriving DecidableEq, Repr

/-- The full event trace of the producer goroutine: the loop's pushes, then
`close(output)`, then `f.Close()`. -/
def producerEvents (want : Nat) (responses : List ReaddirBatch) : List DirEvent :=
  (runLoop want responses).pushed.map DirEvent.push ++
    [DirEvent.closeQueue, DirEvent.closeHandle]

/-- `OpenDir`: open the resolved path on the host; on failure return a nil
stream with the translated error; on success start the producer and return its
stream with `OK`.  The host's open outcome (and, on success, its sequence of
`Readdir` responses) is supplied as an oracle. -/
def LoopbackFileSystem.OpenDir (fs : LoopbackFileSystem) (name : String)
    (hostOpen : String → Except OsError (List ReaddirBatch)) :
    Option (List DirEntry) × Status :=
  match hostOpen (fs.GetPath name) with
  | Except.error e => (none, OsErrorToErrno (some e))
  | Except.ok responses => (some (runLoop readdirWant responses).pushed, OK)

/-- The arguments of one host `os.OpenFile` call. -/
structure OpenCall where
  path : String
  flags : Nat
  mode : Nat
deriving DecidableEq, Repr

/-- `os.O_CREATE` (host ground truth constant). -/
def O_CREATE : Nat := 64

/-- `type LoopbackFile struct { file *os.File }`; `none` models a nil `*os.File`
pointer. -/
structure LoopbackFile where
  file : Option Nat
deriving DecidableEq, Repr

/-- `Open`: `os.OpenFile(path, flags, 0)`; on failure return a nil file with
the translated error, on success wrap the host handle.  Also records the
`OpenFile` call issued. -/
def LoopbackFileSystem.Open (fs : LoopbackFileSystem) (name : String) (flags : Nat)
    (host : OpenCall → Except OsError Nat) :
    OpenCall × Option LoopbackFile × Status :=
  let call : OpenCall := ⟨fs.GetPath name, flags, 0⟩
  match host call with
  | Except.error e => (call, none, OsErrorToErrno (some e))
  | Except.ok fd => (call, some ⟨some fd⟩, OK)

/-- `Create`: `os.OpenFile(path, flags | O_CREATE, mode)`; unconditionally
returns `&LoopbackFile{file: f}` (a wrapper even around a nil host handle)
with the translated status.  Also records the `OpenFile` call issued. -/
def LoopbackFileSystem.Create (fs : LoopbackFileSystem) (path : String)
    (flags mode : Nat) (host : OpenCall → Except OsError Nat) :
    OpenCall × Option LoopbackFile × Status :=
  let call : OpenCall := ⟨fs.GetPath path, flags ||| O_CREATE, mode⟩
  match host call with
  | Except.error e => (call, some ⟨none⟩, OsErrorToErrno (some e))
  | Except.ok fd => (call, some ⟨some fd⟩, OK)

/-- A host primitive invocation that a removal verb may issue. -/
inductive HostCall where
  | unlink (path : String)
  | remove (path : String)
  | rmdir (path : String)
deriving DecidableEq, Repr

/-- `Unlink`: issues exactly `syscall.Unlink` on the resolved path (the source
comment forbids `os.Remove`, which removes twice).  Returns the trace of host
calls issued together with the status cast from the host errno. -/
def LoopbackFileSystem.Unlink (fs : LoopbackFileSystem) (name : String)
    (hostUnlink : String → Nat) : List HostCall × Status :=
  ([HostCall.unlink (fs.GetPath name)], hostUnlink (fs.GetPath name))

/-- `type ReadIn`: offset and size of a read request (protocol layer type,
consumed here). -/
structure ReadIn where
  offset : Nat
  size : Nat
deriving DecidableEq, Repr

/-- Modelled from the spec: the `BufferPool` collaborator is not under `src/`;
per §4.3 and §6 `AllocBuffer(size)` returns a mutable byte buffer sized to the
request. -/
structure BufferPool where
  alloc : Nat → List Nat

/-- The host `ReadAt` error outcome: end-of-file, or a native error. -/
inductive ReadErr where
  | eof
  | os (e : OsError)
deriving DecidableEq, Repr

/-- `LoopbackFile.Read`: allocate a buffer of the requested size from the
pool, `ReadAt` into it (the host's response is the prefix `filled` it wrote
and its error outcome `err`), and return `slice[:n]`.  `os.EOF` is success;
any other error is translated, with the partial data still returned. -/
def LoopbackFile.Read (_me : LoopbackFile) (input : ReadIn) (buffers : BufferPool)
    (filled : List Nat) (err : Option ReadErr) : List Nat × Status :=
  let slice := buffers.alloc input.size
  let n := filled.length
  let buf := filled ++ slice.drop n
  match err with
  | some ReadErr.eof => (buf.take n, OK)
  | none => (buf.take n, OK)
  | some (ReadErr.os e) => (buf.take n, e.errno)

/-- `LoopbackFile.Truncate`: `syscall.Ftruncate(me.file.Fd(), size)` against
the retained handle; `none` models the panic on a nil handle. -/
def LoopbackFile.Truncate (me : LoopbackFile) (size : Nat) (h : HostState) :
    Option Status :=
  me.file.map fun fd => h.ftruncate fd size

/-- `LoopbackFile.Chmod`: `me.file.Chmod(mode)` against the retained handle. -/
def LoopbackFile.Chmod (me : LoopbackFile) (mode : Nat) (h : HostState) :
    Option Status :=
  me.file.map fun fd => OsErrorToErrno (h.fchmod fd mode)

/-- `LoopbackFile.Chown`: `me.file.Chown(uid, gid)` against the retained
handle. -/
def LoopbackFile.Chown (me : LoopbackFile) (uid gid : Nat) (h : HostState) :
    Option Status :=
  me.file.map fun fd => OsErrorToErrno (h.fchown fd uid gid)

/-- `LoopbackFile.GetAttr`: `me.file.Stat()` against the retained handle; on
error the translated status with no `Attr`, on success the copied metadata. -/
def LoopbackFile.GetAttr (me : LoopbackFile) (h : HostState) :
    Option (Option Attr × Status) :=
  me.file.map fun fd =>
    match h.fstat fd with
    | Except.error e => (none, OsErrorToErrno (some e))
    | Except.ok fi => (some (CopyFileInfo fi), OK)

/-! ## Concrete fixtures used by witnesses -/

/-- Fixture: one concrete host metadata record. -/
def fi0 : FileInfo := ⟨"a", 0, 0, 0, 0, 0, 0, 0, 0⟩

/-- Fixture: the full batches a host delivers for a directory of 1200 entries
fetched 500 at a time (two full batches). -/
def demoFull : List (List FileInfo) :=
  [List.replicate 500 fi0, List.replicate 500 fi0]

/-- Fixture: the short final batch of 200 entries of the 1200-entry
directory. -/
def demoLast : List FileInfo := List.replicate 200 fi0

/-- Fixture: a host on which opening any directory succeeds and `Readdir`
delivers the 1200 entries as batches of 500, 500 and 200. -/
def demoHost : String → Except OsError (List ReaddirBatch) :=
  fun _ => Except.ok (demoFull.map (fun b => (b, none)) ++ [(demoLast, none)])

/-- Fixture: a host state where every path resolves and fd 3 is open. -/
def hostA : HostState := ⟨fun _ => Except.ok fi0, fun _ => some fi0⟩

/-- Fixture: a host state with the same fd table as `hostA` but where every
path has disappeared (as after a rename or unlink of the open file). -/
def hostB : HostState := ⟨fun _ => Except.error ⟨ENOENT⟩, fun _ => some fi0⟩

/-! ## Helper lemmas -/

/-- A run of full, error-free batches is fully delivered and costs one fetch
per batch, after which the loop continues on the remaining responses. -/
theorem runLoop_full_batches (want : Nat) (full : List (List FileInfo))
    (hfull : ∀ b ∈ full, b.length = want) (rest : List ReaddirBatch) :
    runLoop want (full.map (fun b => (b, none)) ++ rest) =
      ⟨(full.map (fun b => b.map toDirEntry)).flatten ++ (runLoop want rest).pushed,
        (runLoop want rest).fetches + full.length⟩ := by
  induction full with
  | nil => simp
  | cons b bs ih =>
      have hb : b.length = want := hfull b (by simp)
      have hbs : ∀ x ∈ bs, x.length = want := fun x hx => hfull x (by simp [hx])
      simp only [List.map_cons, List.cons_append, runLoop, hb, lt_irrefl, if_false,
        List.append_eq]
      rw [ih hbs]
      simp only [LoopOut.mk.injEq, List.flatten_cons, List.append_assoc, List.length_cons]
      exact ⟨by simp, by omega⟩

/-- A batch carrying a host error stops the loop right there, delivering that
batch's entries, no matter what responses would have followed. -/
theorem runLoop_error_batch (want : Nat) (b : List FileInfo) (e : OsError)
    (rest : List ReaddirBatch) :
    runLoop want ((b, some e) :: rest) = ⟨b.map toDirEntry, 1⟩ := by
  simp only [runLoop]
  split <;> rfl

/-! ## Claim theorems -/

/-- Claim C1: a path whose host `Lstat` reports absence makes `GetAttr` fail
with `ENOENT` and no `Attr`; a path that exists makes `GetAttr` return `OK`
and an `Attr` whose fields are copied from the host metadata snapshot. -/
theorem getAttr_notfound_and_copy (fs : LoopbackFileSystem) (h : HostState)
    (name : String) :
    (h.lstat (fs.GetPath name) = Except.error ⟨ENOENT⟩ →
      fs.GetAttr h name = (none, ENOENT)) ∧
    (∀ fi, h.lstat (fs.GetPath name) = Except.ok fi →
      fs.GetAttr h name = (some (CopyFileInfo fi), OK) ∧
      (CopyFileInfo fi).size = fi.size ∧ (CopyFileInfo fi).mode = fi.mode ∧
      (CopyFileInfo fi).atimeNs = fi.atimeNs ∧ (CopyFileInfo fi).mtimeNs = fi.mtimeNs ∧
      (CopyFileInfo fi).ctimeNs = fi.ctimeNs ∧ (CopyFileInfo fi).nlink = fi.nlink ∧
      (CopyFileInfo fi).uid = fi.uid ∧ (CopyFileInfo fi).gid = fi.gid) := by
  constructor
  · intro he
    simp [LoopbackFileSystem.GetAttr, he]
  · intro fi hfi
    simp [LoopbackFileSystem.GetAttr, hfi, CopyFileInfo]

/-- Witness for C1 on two concrete hosts: one where the path is absent, one
where it carries concrete metadata. -/
theorem getAttr_notfound_and_copy_witness :
    (NewLoopbackFileSystem "r").GetAttr
        ⟨fun _ => Except.error ⟨ENOENT⟩, fun _ => none⟩ "gone" = (none, ENOENT) ∧
    (NewLoopbackFileSystem "r").GetAttr
        ⟨fun _ => Except.ok ⟨"f", 7, 420, 1, 2, 3, 1, 0, 0⟩, fun _ => none⟩ "f" =
      (some (CopyFileInfo ⟨"f", 7, 420, 1, 2, 3, 1, 0, 0⟩), OK) :=
  ⟨(getAttr_notfound_and_copy _ _ _).1 rfl,
    ((getAttr_notfound_and_copy _ _ _).2 _ rfl).1⟩

/-- Claim C2 counterexample: a host `Lstat` failure with `EACCES` (permission
denied, not absence) comes back from `GetAttr` as `ENOENT`, which is not the
direct translation of the host's error code. -/
theorem getAttr_collapses_eacces :
    ((NewLoopbackFileSystem "r").GetAttr
        ⟨fun _ => Except.error ⟨EACCES⟩, fun _ => none⟩ "f").2 = ENOENT ∧
    ENOENT ≠ OsErrorToErrno (some ⟨EACCES⟩) := by
  constructor
  · rfl
  · simp [ENOENT, EACCES, OsErrorToErrno]

/-- Claim C2 (amended): every operation other than Query-attributes returns
the direct, lossless translation of the host's native error code (shown here
for `Chmod`), while Query-attributes (`GetAttr`) maps every host failure,
absence or not, to `ENOENT`. -/
theorem chmod_lossless_getattr_collapses (fs : LoopbackFileSystem)
    (path name : String) (mode : Nat)
    (hostChmod : String → Nat → Option OsError) (h : HostState) :
    (∀ e, hostChmod (fs.GetPath path) mode = some e →
      fs.Chmod path mode hostChmod = e.errno) ∧
    (∀ e, h.lstat (fs.GetPath name) = Except.error e →
      fs.GetAttr h name = (none, ENOENT)) := by
  constructor
  · intro e he
    simp [LoopbackFileSystem.Chmod, he, OsErrorToErrno]
  · intro e he
    simp [LoopbackFileSystem.GetAttr, he]

/-- Witness for amended C2: a concrete `EACCES` failure of the host chmod is
returned verbatim, and a concrete `EACCES` failure of `Lstat` becomes
`ENOENT`. -/
theorem chmod_lossless_getattr_collapses_witness :
    (NewLoopbackFileSystem "r").Chmod "f" 420 (fun _ _ => some ⟨EACCES⟩) = EACCES ∧
    (NewLoopbackFileSystem "r").GetAttr
        ⟨fun _ => Except.error ⟨EACCES⟩, fun _ => none⟩ "f" = (none, ENOENT) :=
  ⟨(chmod_lossless_getattr_collapses (NewLoopbackFileSystem "r") "f" "f" 420
      (fun _ _ => some ⟨EACCES⟩) ⟨fun _ => Except.error ⟨EACCES⟩, fun _ => none⟩).1
      ⟨EACCES⟩ rfl,
    (chmod_lossless_getattr_collapses (NewLoopbackFileSystem "r") "f" "f" 420
      (fun _ _ => some ⟨EACCES⟩) ⟨fun _ => Except.error ⟨EACCES⟩, fun _ => none⟩).2
      ⟨EACCES⟩ rfl⟩

/-- Claim C7: the file-removal verb issues exactly one host call, and that
call is the host's unlink primitive, never a higher-level remove or a
directory removal. -/
theorem unlink_single_host_unlink (fs : LoopbackFileSystem) (name : String)
    (hostUnlink : String → Nat) :
    (fs.Unlink name hostUnlink).1 = [HostCall.unlink (fs.GetPath name)] ∧
    (fs.Unlink name hostUnlink).1.length = 1 ∧
    (∀ p, HostCall.remove p ∉ (fs.Unlink name hostUnlink).1) ∧
    (∀ p, HostCall.rmdir p ∉ (fs.Unlink name hostUnlink).1) := by
  refine ⟨rfl, rfl, ?_, ?_⟩ <;> intro p <;> simp [LoopbackFileSystem.Unlink]

/-- Claim C9: when the host open fails, `Create` still returns a non-nil file
object wrapping a nil host handle (alongside the translated error), whereas
`Open` returns a nil file object. -/
theorem create_nonnil_open_nil_on_failure (fs : LoopbackFileSystem)
    (path name : String) (flags mode oflags : Nat)
    (host hostO : OpenCall → Except OsError Nat) (e eo : OsError)
    (hc : host ⟨fs.GetPath path, flags ||| O_CREATE, mode⟩ = Except.error e)
    (ho : hostO ⟨fs.GetPath name, oflags, 0⟩ = Except.error eo) :
    (fs.Create path flags mode host).2.1 = some ⟨none⟩ ∧
    (fs.Create path flags mode host).2.2 = e.errno ∧
    (fs.Open name oflags hostO).2.1 = none := by
  refine ⟨?_, ?_, ?_⟩ <;>
    simp [LoopbackFileSystem.Create, LoopbackFileSystem.Open, hc, ho, OsErrorToErrno]

/-- Witness for C9: a host that rejects every open with `EACCES`. -/
theorem create_nonnil_open_nil_on_failure_witness :
    ((NewLoopbackFileSystem "r").Create "f" 1 420
        (fun _ => Except.error ⟨EACCES⟩)).2.1 = some ⟨none⟩ ∧
    ((NewLoopbackFileSystem "r").Open "f" 1
        (fun _ => Except.error ⟨EACCES⟩)).2.1 = none :=
  ⟨(create_nonnil_open_nil_on_failure (NewLoopbackFileSystem "r") "f" "f" 1 420 1
      (fun _ => Except.error ⟨EACCES⟩) (fun _ => Except.error ⟨EACCES⟩)
      ⟨EACCES⟩ ⟨EACCES⟩ rfl rfl).1,
    (create_nonnil_open_nil_on_failure (NewLoopbackFileSystem "r") "f" "f" 1 420 1
      (fun _ => Except.error ⟨EACCES⟩) (fun _ => Except.error ⟨EACCES⟩)
      ⟨EACCES⟩ ⟨EACCES⟩ rfl rfl).2.2⟩

/-- Claim C10: when the host open of the directory itself fails, `OpenDir`
returns a nil stream together with the translated host status, not an empty
closed stream. -/
theorem opendir_error_nil_stream (fs : LoopbackFileSystem) (name : String)
    (hostOpen : String → Except OsError (List ReaddirBatch)) (e : OsError)
    (herr : hostOpen (fs.GetPath name) = Except.error e) :
    fs.OpenDir name hostOpen = (none, e.errno) ∧
    ∀ s : List DirEntry, (fs.OpenDir name hostOpen).1 ≠ some s := by
  constructor
  · simp [LoopbackFileSystem.OpenDir, herr, OsErrorToErrno]
  · intro s
    simp [LoopbackFileSystem.OpenDir, herr]

/-- Witness for C10: a concrete host that rejects the directory open with
`EACCES`. -/
theorem opendir_error_nil_stream_witness :
    (NewLoopbackFileSystem "r").OpenDir "d" (fun _ => Except.error ⟨EACCES⟩) =
      (none, EACCES) :=
  (opendir_error_nil_stream (NewLoopbackFileSystem "r") "d"
    (fun _ => Except.error ⟨EACCES⟩) ⟨EACCES⟩ rfl).1

/-- Claim C3: a directory whose entry count exceeds the batch size of 500 is
listed as exactly the concatenation of the host fetch batches — every entry
once, none duplicated or dropped — with `OK`, and the producer stops after the
first batch shorter than 500, e.g. 1200 entries cost 3 host fetches. -/
theorem opendir_batches_exact (fs : LoopbackFileSystem) (name : String)
    (hostOpen : String → Except OsError (List ReaddirBatch))
    (full : List (List FileInfo)) (lastB : List FileInfo)
    (hfull : ∀ b ∈ full, b.length = readdirWant)
    (hlast : lastB.length < readdirWant)
    (hresp : hostOpen (fs.GetPath name) =
      Except.ok (full.map (fun b => (b, none)) ++ [(lastB, none)]))
    (hbig : readdirWant < (full.flatten ++ lastB).length) :
    (fs.OpenDir name hostOpen).1 = some ((full.flatten ++ lastB).map toDirEntry) ∧
    (fs.OpenDir name hostOpen).2 = OK ∧
    (runLoop readdirWant (full.map (fun b => (b, none)) ++ [(lastB, none)])).fetches =
      full.length + 1 := by
  have hrun := runLoop_full_batches readdirWant full hfull [(lastB, none)]
  have hlastrun : runLoop readdirWant [(lastB, none)] = ⟨lastB.map toDirEntry, 1⟩ := by
    simp [runLoop, hlast]
  rw [hlastrun] at hrun
  refine ⟨?_, ?_, ?_⟩
  · simp only [LoopbackFileSystem.OpenDir, hresp, hrun]
    simp [List.map_append, List.map_flatten]
  · simp [LoopbackFileSystem.OpenDir, hresp]
  · rw [hrun]
    show 1 + full.length = full.length + 1
    omega

/-- Witness for C3: the concrete 1200-entry directory is delivered whole, with
`OK`, in exactly 3 host fetches. -/
theorem opendir_batches_exact_witness :
    ((NewLoopbackFileSystem "r").OpenDir "d" demoHost).1 =
      some ((demoFull.flatten ++ demoLast).map toDirEntry) ∧
    ((NewLoopbackFileSystem "r").OpenDir "d" demoHost).2 = OK ∧
    (runLoop readdirWant (demoFull.map (fun b => (b, none)) ++ [(demoLast, none)])).fetches = 3 ∧
    (demoFull.flatten ++ demoLast).length = 1200 := by
  have h := opendir_batches_exact (NewLoopbackFileSystem "r") "d" demoHost demoFull demoLast
    (by intro b hb
        simp only [demoFull, List.mem_cons, List.not_mem_nil, or_false] at hb
        rcases hb with hb | hb <;> rw [hb, List.length_replicate] <;> rfl)
    (by show (List.replicate 200 fi0).length < readdirWant
        rw [List.length_replicate]
        norm_num [readdirWant])
    rfl
    (by simp only [demoFull, demoLast, List.flatten_cons, List.flatten_nil,
          List.append_nil, List.length_append, List.length_replicate, readdirWant]
        norm_num)
  refine ⟨h.1, h.2.1, h.2.2, ?_⟩
  simp only [demoFull, demoLast, List.flatten_cons, List.flatten_nil,
    List.append_nil, List.length_append, List.length_replicate]

/-- Claim C4: `Read` allocates a buffer of the requested size from the
supplied pool; host end-of-file comes back as `OK` with the (possibly short)
filled prefix; any other host error comes back translated, still with the
partial data; the returned slice is exactly the filled prefix of that
buffer. -/
theorem read_eof_ok_and_partial (me : LoopbackFile) (input : ReadIn)
    (buffers : BufferPool) (filled : List Nat) (err : Option ReadErr)
    (hpool : (buffers.alloc input.size).length = input.size)
    (hlen : filled.length ≤ input.size) :
    (me.Read input buffers filled err).1 = filled ∧
    (err = some ReadErr.eof → (me.Read input buffers filled err).2 = OK) ∧
    (err = none → (me.Read input buffers filled err).2 = OK) ∧
    (∀ e, err = some (ReadErr.os e) →
      (me.Read input buffers filled err).2 = OsErrorToErrno (some e)) ∧
    (filled ++ (buffers.alloc input.size).drop filled.length).length = input.size := by
  have htake : (filled ++ (buffers.alloc input.size).drop filled.length).take
      filled.length = filled := List.take_left filled _
  refine ⟨?_, ?_, ?_, ?_, ?_⟩
  · match err with
    | some ReadErr.eof => exact htake
    | none => exact htake
    | some (ReadErr.os e) => exact htake
  · intro he; simp [LoopbackFile.Read, he]
  · intro he; simp [LoopbackFile.Read, he]
  · intro e he; simp [LoopbackFile.Read, he, OsErrorToErrno]
  · simp only [List.length_append, List.length_drop, hpool]
    omega

/-- Witness for C4: a 10-byte request against a pool handing out zero-filled
buffers, where the host fills 4 bytes and reports end-of-file, and the same
request where the host fills 4 bytes and fails with `EACCES`. -/
theorem read_eof_ok_and_partial_witness :
    ((⟨some 3⟩ : LoopbackFile).Read ⟨0, 10⟩ ⟨fun n => List.replicate n 0⟩
        [7, 7, 7, 7] (some ReadErr.eof)).1 = [7, 7, 7, 7] ∧
    ((⟨some 3⟩ : LoopbackFile).Read ⟨0, 10⟩ ⟨fun n => List.replicate n 0⟩
        [7, 7, 7, 7] (some ReadErr.eof)).2 = OK ∧
    ((⟨some 3⟩ : LoopbackFile).Read ⟨0, 10⟩ ⟨fun n => List.replicate n 0⟩
        [7, 7, 7, 7] (some (ReadErr.os ⟨EACCES⟩))).2 = OsErrorToErrno (some ⟨EACCES⟩) := by
  have heof := read_eof_ok_and_partial ⟨some 3⟩ ⟨0, 10⟩ ⟨fun n => List.replicate n 0⟩
    [7, 7, 7, 7] (some ReadErr.eof) (by simp) (by simp)
  have herr := read_eof_ok_and_partial ⟨some 3⟩ ⟨0, 10⟩ ⟨fun n => List.replicate n 0⟩
    [7, 7, 7, 7] (some (ReadErr.os ⟨EACCES⟩)) (by simp) (by simp)
  exact ⟨heof.1, heof.2.1 rfl, herr.2.2.2.1 ⟨EACCES⟩ rfl⟩

/-- Claim C5: `Create` issues the host open on the resolved path with the
create-if-missing flag ORed into the caller's flags and with the caller's
mode; host success yields a handle wrapping the host handle with `OK`; host
failure yields the translated host error. -/
theorem create_flags_mode_result (fs : LoopbackFileSystem) (path : String)
    (flags mode : Nat) (host : OpenCall → Except OsError Nat) :
    (fs.Create path flags mode host).1 =
      ⟨fs.GetPath path, flags ||| O_CREATE, mode⟩ ∧
    (∀ fd, host ⟨fs.GetPath path, flags ||| O_CREATE, mode⟩ = Except.ok fd →
      (fs.Create path flags mode host).2 = (some ⟨some fd⟩, OK)) ∧
    (∀ e, host ⟨fs.GetPath path, flags ||| O_CREATE, mode⟩ = Except.error e →
      (fs.Create path flags mode host).2.2 = OsErrorToErrno (some e)) := by
  refine ⟨?_, ?_, ?_⟩
  · cases hc : host ⟨fs.GetPath path, flags ||| O_CREATE, mode⟩ <;>
      simp [LoopbackFileSystem.Create, hc]
  · intro fd hfd
    simp [LoopbackFileSystem.Create, hfd]
  · intro e he
    simp [LoopbackFileSystem.Create, he, OsErrorToErrno]

/-- Witness for C5: a host that grants fd 7 to every open, and one that
rejects every open with `EACCES`. -/
theorem create_flags_mode_result_witness :
    ((NewLoopbackFileSystem "r").Create "f" 1 420 (fun _ => Except.ok 7)).1 =
      ⟨(NewLoopbackFileSystem "r").GetPath "f", 1 ||| O_CREATE, 420⟩ ∧
    ((NewLoopbackFileSystem "r").Create "f" 1 420 (fun _ => Except.ok 7)).2 =
      (some ⟨some 7⟩, OK) ∧
    ((NewLoopbackFileSystem "r").Create "f" 1 420
        (fun _ => Except.error ⟨EACCES⟩)).2.2 = OsErrorToErrno (some ⟨EACCES⟩) :=
  ⟨(create_flags_mode_result (NewLoopbackFileSystem "r") "f" 1 420
      (fun _ => Except.ok 7)).1,
    (create_flags_mode_result (NewLoopbackFileSystem "r") "f" 1 420
      (fun _ => Except.ok 7)).2.1 7 rfl,
    (create_flags_mode_result (NewLoopbackFileSystem "r") "f" 1 420
      (fun _ => Except.error ⟨EACCES⟩)).2.2 ⟨EACCES⟩ rfl⟩

/-- Claim C6: a host error during a mid-enumeration batch fetch stops the
producer right there — the entries up to and including the erroring batch are
delivered and the remaining responses are never fetched — and the observable
trace is entry pushes followed by the queue close and the directory-handle
close, the same shape as a normal end, with no error signal; moreover on every
response sequence whatsoever the trace ends with the queue close followed by
the handle close. -/
theorem opendir_midstream_error_truncates (want : Nat)
    (full : List (List FileInfo)) (hfull : ∀ x ∈ full, x.length = want)
    (b : List FileInfo) (e : OsError) (rest : List ReaddirBatch) :
    (runLoop want (full.map (fun x => (x, none)) ++ (b, some e) :: rest)).pushed =
      (full.flatten ++ b).map toDirEntry ∧
    (runLoop want (full.map (fun x => (x, none)) ++ (b, some e) :: rest)).fetches =
      full.length + 1 ∧
    producerEvents want (full.map (fun x => (x, none)) ++ (b, some e) :: rest) =
      ((full.flatten ++ b).map toDirEntry).map DirEvent.push ++
        [DirEvent.closeQueue, DirEvent.closeHandle] ∧
    (∀ rs : List ReaddirBatch, producerEvents want rs =
      (runLoop want rs).pushed.map DirEvent.push ++
        [DirEvent.closeQueue, DirEvent.closeHandle]) := by
  have h := runLoop_full_batches want full hfull ((b, some e) :: rest)
  rw [runLoop_error_batch] at h
  have hpush : (runLoop want (full.map (fun x => (x, none)) ++
      (b, some e) :: rest)).pushed = (full.flatten ++ b).map toDirEntry := by
    rw [h]
    simp [List.map_append, List.map_flatten]
  refine ⟨hpush, ?_, ?_, fun rs => rfl⟩
  · rw [h]
    show 1 + full.length = full.length + 1
    omega
  · simp only [producerEvents, hpush]

/-- Witness for C6: with batch size 2, one full clean batch, then a full batch
on which the host errors, then one more response that is never fetched: the
four entries come out, two fetches happen, and the trace closes the queue then
the handle. -/
theorem opendir_midstream_error_truncates_witness :
    (runLoop 2 (([[fi0, fi0]] : List (List FileInfo)).map (fun x => (x, none)) ++
        ([fi0, fi0], some ⟨EACCES⟩) :: [([fi0], none)])).pushed =
      (([[fi0, fi0]] : List (List FileInfo)).flatten ++ [fi0, fi0]).map toDirEntry ∧
    (runLoop 2 (([[fi0, fi0]] : List (List FileInfo)).map (fun x => (x, none)) ++
        ([fi0, fi0], some ⟨EACCES⟩) :: [([fi0], none)])).fetches = 2 ∧
    producerEvents 2 (([[fi0, fi0]] : List (List FileInfo)).map (fun x => (x, none)) ++
        ([fi0, fi0], some ⟨EACCES⟩) :: [([fi0], none)]) =
      ((([[fi0, fi0]] : List (List FileInfo)).flatten ++ [fi0, fi0]).map toDirEntry).map
          DirEvent.push ++ [DirEvent.closeQueue, DirEvent.closeHandle] := by
  have h := opendir_midstream_error_truncates 2 [[fi0, fi0]]
    (by intro x hx; simp at hx; simp [hx]) [fi0, fi0] ⟨EACCES⟩ [([fi0], none)]
  exact ⟨h.1, h.2.1, h.2.2.1⟩

/-- Claim C8: handle-level Truncate, Chmod, Chown and Query-attributes are
issued against the retained host fd and take no path argument, so two host
states agreeing on the fd table — e.g. before and after a rename or unlink,
which change only the path view — give identical results. -/
theorem handle_ops_ignore_path_view (f : LoopbackFile) (size mode uid gid : Nat)
    (h1 h2 : HostState) (hfd : h1.fdTable = h2.fdTable) :
    f.Truncate size h1 = f.Truncate size h2 ∧
    f.Chmod mode h1 = f.Chmod mode h2 ∧
    f.Chown uid gid h1 = f.Chown uid gid h2 ∧
    f.GetAttr h1 = f.GetAttr h2 := by
  refine ⟨?_, ?_, ?_, ?_⟩ <;>
    simp [LoopbackFile.Truncate, LoopbackFile.Chmod, LoopbackFile.Chown,
      LoopbackFile.GetAttr, HostState.ftruncate, HostState.fchmod,
      HostState.fchown, HostState.fstat, hfd]

/-- Witness for C8: `hostA` and `hostB` share an fd table but disagree on
every path (every path has vanished in `hostB`); the four handle operations on
fd 3 cannot tell them apart. -/
theorem handle_ops_ignore_path_view_witness :
    (⟨some 3⟩ : LoopbackFile).Truncate 7 hostA =
      (⟨some 3⟩ : LoopbackFile).Truncate 7 hostB ∧
    (⟨some 3⟩ : LoopbackFile).Chmod 420 hostA =
      (⟨some 3⟩ : LoopbackFile).Chmod 420 hostB ∧
    (⟨some 3⟩ : LoopbackFile).Chown 0 0 hostA =
      (⟨some 3⟩ : LoopbackFile).Chown 0 0 hostB ∧
    (⟨some 3⟩ : LoopbackFile).GetAttr hostA =
      (⟨some 3⟩ : LoopbackFile).GetAttr hostB :=
  handle_ops_ignore_path_view ⟨some 3⟩ 7 420 0 0 hostA hostB rfl

/-- Witness for C7: removing a concrete file issues the single host unlink
call on the resolved path and nothing else. -/
theorem unlink_single_host_unlink_witness :
    ((NewLoopbackFileSystem "r").Unlink "f" (fun _ => 0)).1 =
      [HostCall.unlink ((NewLoopbackFileSystem "r").GetPath "f")] ∧
    ((NewLoopbackFileSystem "r").Unlink "f" (fun _ => 0)).1.length = 1 ∧
    HostCall.remove "r/f" ∉ ((NewLoopbackFileSystem "r").Unlink "f" (fun _ => 0)).1 :=
  ⟨(unlink_single_host_unlink (NewLoopbackFileSystem "r") "f" (fun _ => 0)).1,
    (unlink_single_host_unlink (NewLoopbackFileSystem "r") "f" (fun _ => 0)).2.1,
    (unlink_single_host_unlink (NewLoopbackFileSystem "r") "f" (fun _ => 0)).2.2.1 "r/f"⟩
